import Mathlib

/-!
Shallow embedding of the poll-miniapp API (src/src/app/api/polls/route.ts,
persistent Redis-backed variant).  The store holds one record per poll keyed
by id, plus a sorted index (score = createdAt) used for listing.  Handlers
are embedded as state-passing functions: each takes the store and the data
the real handler reads from the request and the clock, and returns the
response together with the (possibly updated) store.
-/

/-- One entry of `poll.options`: option text and its vote count. -/
structure PollOption where
  text : String
  votes : Nat
deriving Repr, DecidableEq

/-- The stored poll record (interface StoredPoll in route.ts). -/
structure StoredPoll where
  id : String
  title : String
  options : List PollOption
  voters : List String
  creatorId : String
  creatorName : String
  createdAt : Nat
  expiresAt : Nat
deriving Repr, DecidableEq

/-- The sanitized view returned to clients: `sanitize` in route.ts strips the
voter list, keeping only its cardinality (`totalVoters`). -/
structure SanitizedPoll where
  id : String
  title : String
  options : List PollOption
  totalVoters : Nat
  creatorId : String
  creatorName : String
  createdAt : Nat
  expiresAt : Nat
deriving Repr, DecidableEq

/-- `sanitize(poll)` from route.ts. -/
def sanitize (p : StoredPoll) : SanitizedPoll :=
  { id := p.id
    title := p.title
    options := p.options
    totalVoters := p.voters.length
    creatorId := p.creatorId
    creatorName := p.creatorName
    createdAt := p.createdAt
    expiresAt := p.expiresAt }

/-- `isExpired(poll)`: `Date.now() > poll.expiresAt`, with the clock passed
explicitly. -/
def isExpired (now : Nat) (p : StoredPoll) : Bool :=
  p.expiresAt < now

/-- The store: `poll:{id}` keys as an association list, and the
`polls:index` sorted set as a score/member list kept ascending by score. -/
structure Store where
  polls : List (String × StoredPoll)
  index : List (Nat × String)
deriving Repr, DecidableEq

/-- `redis.get("poll:" + id)`. -/
def getPoll (s : Store) (id : String) : Option StoredPoll :=
  (s.polls.find? (fun e => e.1 == id)).map (fun e => e.2)

/-- `redis.set("poll:" + id, poll)`: insert or overwrite the key. -/
def setKey (l : List (String × StoredPoll)) (id : String) (p : StoredPoll) :
    List (String × StoredPoll) :=
  (id, p) :: l.filter (fun e => e.1 != id)

/-- Sorted-set insertion: place the entry before the first strictly greater
score, keeping the index ascending by score. -/
def zinsert (e : Nat × String) : List (Nat × String) → List (Nat × String)
  | [] => [e]
  | x :: xs => if e.1 < x.1 then e :: x :: xs else x :: zinsert e xs

/-- `redis.zadd("polls:index", {score, member})`: update the member's score
(removing any previous entry) and keep the set sorted. -/
def zadd (idx : List (Nat × String)) (score : Nat) (member : String) :
    List (Nat × String) :=
  zinsert (score, member) (idx.filter (fun e => e.2 != member))

/-- `redis.zrem("polls:index", member)`. -/
def zrem (idx : List (Nat × String)) (member : String) : List (Nat × String) :=
  idx.filter (fun e => e.2 != member)

/-- `redis.zrange("polls:index", 0, -1, {rev: true})`: members by score
descending. -/
def zrangeRev (idx : List (Nat × String)) : List String :=
  idx.reverse.map (fun e => e.2)

/-- `savePoll(poll)`: write the record and index it under its creation
time.  (The storage TTL computed there is physical-expiry bookkeeping with
no effect on the modelled state.) -/
def savePoll (s : Store) (p : StoredPoll) : Store :=
  { polls := setKey s.polls p.id p
    index := zadd s.index p.createdAt p.id }

/-- Error kinds, one per HTTP status used by the handlers:
400 validation, 403 forbidden, 404 not-found. -/
inductive ErrKind
  | validation
  | forbidden
  | notFound
deriving Repr, DecidableEq

/-- An error response: kind plus the message string of the JSON body. -/
structure ApiError where
  kind : ErrKind
  message : String
deriving Repr, DecidableEq

/-- A successful annotated poll view: sanitized record plus the
`hasVoted` / `isCreator` / `expired` annotations. -/
structure PollResponse where
  poll : SanitizedPoll
  hasVoted : Bool
  isCreator : Bool
  expired : Bool
deriving Repr, DecidableEq

/-- The POST body fields.  `Option` models absent JSON fields; the JS
falsiness coercions (`||` defaults) are applied where route.ts applies
them. -/
structure CreateRequest where
  title : Option String
  options : Option (List String)
  creatorId : Option String
  creatorName : Option String
  durationAmount : Option Int
  durationUnit : Option String

/-- JS `s || d` for strings: `undefined` and `""` are falsy. -/
def jsOrStr (o : Option String) (d : String) : String :=
  match o with
  | none => d
  | some s => if s = "" then d else s

/-- JS `n || d` for numbers: `undefined` and `0` are falsy. -/
def jsOrInt (o : Option Int) (d : Int) : Int :=
  match o with
  | none => d
  | some n => if n = 0 then d else n

/-- `UNIT_MS`: milliseconds per duration unit. -/
def UNIT_MS (u : String) : Option Nat :=
  if u = "hours" then some 3600000
  else if u = "days" then some 86400000
  else if u = "weeks" then some 604800000
  else if u = "months" then some 2592000000
  else none

/-- `Math.max(1, durationAmount || 1)`. -/
def durAmount (d : Option Int) : Nat :=
  (max 1 (jsOrInt d 1)).toNat

/-- `UNIT_MS[durationUnit] || UNIT_MS.days` (all table values are truthy,
so the default applies exactly to unknown units and a missing field). -/
def durUnitMs (u : Option String) : Nat :=
  ((u.bind UNIT_MS).getD 86400000)

/-- A whitespace character, as JS `trim()` strips them (the common ones). -/
def isWs (c : Char) : Bool :=
  c = ' ' ∨ c = '\t' ∨ c = '\n' ∨ c = '\r'

/-- JS `String.prototype.trim`: strip whitespace from both ends. -/
def jsTrim (s : String) : String :=
  ⟨(((s.data.dropWhile isWs).reverse.dropWhile isWs).reverse)⟩

/-- `!title?.trim()`: the title is missing or trims to empty. -/
def titleBlank (t : Option String) : Bool :=
  match t with
  | none => true
  | some s => jsTrim s == ""

/-- `options.filter(o => o.trim()).map(o => ({text: o.trim(), votes: 0}))`. -/
def mkOptions (opts : List String) : List PollOption :=
  (opts.filter (fun o => jsTrim o != "")).map
    (fun o => { text := jsTrim o, votes := 0 })

/-- The record the POST handler builds once validation has passed. -/
def builtPoll (req : CreateRequest) (pollId : String) (now : Nat) : StoredPoll :=
  { id := pollId
    title := jsTrim (req.title.getD "")
    options := mkOptions (req.options.getD [])
    voters := []
    creatorId := jsOrStr req.creatorId "anonymous"
    creatorName := jsTrim (jsOrStr req.creatorName "Anonymous")
    createdAt := now
    expiresAt := now + durAmount req.durationAmount * durUnitMs req.durationUnit }

/-- POST handler: validate, build the record, save it.  `pollId` stands for
the randomly generated id and `now` for `Date.now()`. -/
def createPoll (s : Store) (req : CreateRequest) (pollId : String) (now : Nat) :
    Except ApiError PollResponse × Store :=
  if titleBlank req.title ∨ req.options = none ∨ (req.options.getD []).length < 2 then
    (.error ⟨.validation, "Title and at least 2 options required"⟩, s)
  else
    (.ok { poll := sanitize (builtPoll req pollId now)
           hasVoted := false
           isCreator := true
           expired := false },
      savePoll s (builtPoll req pollId now))

/-- Increment the vote count of the option at position `i`
(`poll.options[optionIndex].votes++`). -/
def incVote : List PollOption → Nat → List PollOption
  | [], _ => []
  | o :: rest, 0 => { o with votes := o.votes + 1 } :: rest
  | o :: rest, n + 1 => o :: incVote rest n

/-- `poll.options[optionIndex].votes++; poll.voters.push(visitorId)`. -/
def votedPoll (poll : StoredPoll) (optionIndex : Int) (visitorId : String) :
    StoredPoll :=
  { poll with
    options := incVote poll.options optionIndex.toNat
    voters := poll.voters ++ [visitorId] }

/-- PUT handler (Vote).  Checks run in source order: not-found, expired,
option bounds, duplicate voter; only then mutate and save. -/
def vote (s : Store) (pollId : String) (optionIndex : Int) (visitorId : String)
    (now : Nat) : Except ApiError PollResponse × Store :=
  match getPoll s pollId with
  | none => (.error ⟨.notFound, "Not found"⟩, s)
  | some poll =>
    if isExpired now poll then
      (.error ⟨.forbidden, "This poll has expired"⟩, s)
    else if optionIndex < 0 ∨ (poll.options.length : Int) ≤ optionIndex then
      (.error ⟨.validation, "Invalid option"⟩, s)
    else if poll.voters.contains visitorId then
      (.error ⟨.forbidden, "You have already voted"⟩, s)
    else
      (.ok { poll := sanitize (votedPoll poll optionIndex visitorId)
             hasVoted := true
             isCreator := (votedPoll poll optionIndex visitorId).creatorId == visitorId
             expired := false },
        savePoll s (votedPoll poll optionIndex visitorId))

/-- DELETE handler: only the creator may remove the record; removal also
drops the entry from the ordering index. -/
def deletePoll (s : Store) (pollId visitorId : String) :
    Except ApiError Unit × Store :=
  match getPoll s pollId with
  | none => (.error ⟨.notFound, "Not found"⟩, s)
  | some poll =>
    if poll.creatorId ≠ visitorId then
      (.error ⟨.forbidden, "Only the creator can delete this poll"⟩, s)
    else
      (.ok (), { polls := s.polls.filter (fun e => e.1 != pollId)
                 index := zrem s.index pollId })

/-- GET with an id: the single-poll view. -/
def getOne (s : Store) (pollId : String) (visitorId : Option String) (now : Nat) :
    Except ApiError PollResponse :=
  match getPoll s pollId with
  | none => .error ⟨.notFound, "Not found"⟩
  | some poll =>
    .ok { poll := sanitize poll
          hasVoted := match visitorId with
            | some v => poll.voters.contains v
            | none => false
          isCreator := match visitorId with
            | some v => poll.creatorId == v
            | none => false
          expired := isExpired now poll }

/-- GET without an id: list all polls, index order (newest first), skipping
ids whose record is gone. -/
def listPolls (s : Store) (visitorId : Option String) (now : Nat) :
    List PollResponse :=
  (zrangeRev s.index).filterMap (fun pid =>
    (getPoll s pid).map (fun poll =>
      { poll := sanitize poll
        hasVoted := match visitorId with
          | some v => poll.voters.contains v
          | none => false
        isCreator := match visitorId with
          | some v => poll.creatorId == v
          | none => false
        expired := isExpired now poll }))

/-! ### Derived notions used by the verification -/

/-- Total number of votes across a poll's options. -/
def sumVotes (l : List PollOption) : Nat :=
  (l.map (fun o => o.votes)).sum

/-- Per-record invariant: counts add up to the voter-set size and no voter
is recorded twice. -/
def PollInv (p : StoredPoll) : Prop :=
  sumVotes p.options = p.voters.length ∧ p.voters.Nodup

/-- Every record is stored under the key equal to its own id (true of every
store the handlers produce, since `savePoll` keys by `poll.id`). -/
def WellKeyed (s : Store) : Prop :=
  ∀ e ∈ s.polls, e.2.id = e.1

/-- Stores reachable from the empty store through the three mutating
handlers (the two GET handlers read only). -/
inductive Reachable : Store → Prop
  | empty : Reachable ⟨[], []⟩
  | create (s : Store) (req : CreateRequest) (pid : String) (now : Nat) :
      Reachable s → Reachable (createPoll s req pid now).2
  | voteStep (s : Store) (pid : String) (i : Int) (v : String) (now : Nat) :
      Reachable s → Reachable (vote s pid i v now).2
  | deleteStep (s : Store) (pid v : String) :
      Reachable s → Reachable (deletePoll s pid v).2

/-! ### Lookup lemmas -/

theorem getPoll_eq_some_mem {s : Store} {pid : String} {p : StoredPoll}
    (h : getPoll s pid = some p) : (pid, p) ∈ s.polls := by
  unfold getPoll at h
  cases hf : s.polls.find? (fun e => e.1 == pid) with
  | none => rw [hf] at h; simp at h
  | some e =>
    rw [hf] at h
    simp only [Option.map_some'] at h
    have hmem := List.mem_of_find?_eq_some hf
    have hkey := List.find?_some hf
    simp only [beq_iff_eq] at hkey
    have : e = (pid, p) := by
      cases e with
      | mk a b => simp_all
    rw [this] at hmem
    exact hmem

theorem find?_filter_key (l : List (String × StoredPoll)) (q pid : String)
    (h : q ≠ pid) :
    (l.filter (fun e => e.1 != pid)).find? (fun e => e.1 == q) =
      l.find? (fun e => e.1 == q) := by
  induction l with
  | nil => rfl
  | cons x xs ih =>
    by_cases hx : x.1 = pid
    · have h1 : (fun e => e.1 != pid) x = false := by simp [hx]
      have h2 : (fun e => e.1 == q) x = false := by
        simp [hx]; exact fun hq => absurd hq.symm h
      simp only [List.filter_cons, h1, Bool.false_eq_true, if_false]
      rw [List.find?_cons_of_neg _ (by simp [h2]), ih]
    · have h1 : (fun e => e.1 != pid) x = true := by simp [hx]
      simp only [List.filter_cons, h1, if_true]
      by_cases hq : x.1 = q
      · rw [List.find?_cons_of_pos _ (by simp [hq]),
          List.find?_cons_of_pos _ (by simp [hq])]
      · rw [List.find?_cons_of_neg _ (by simp [hq]),
          List.find?_cons_of_neg _ (by simp [hq]), ih]

theorem getPoll_savePoll_self (s : Store) (p : StoredPoll) :
    getPoll (savePoll s p) p.id = some p := by
  unfold getPoll savePoll setKey
  rw [List.find?_cons_of_pos _ (by simp)]
  rfl

theorem getPoll_savePoll_ne (s : Store) (p : StoredPoll) (q : String)
    (h : q ≠ p.id) : getPoll (savePoll s p) q = getPoll s q := by
  unfold getPoll savePoll setKey
  rw [List.find?_cons_of_neg _ (by simp; exact fun hq => absurd hq.symm h)]
  rw [find?_filter_key _ _ _ h]

/-! ### incVote lemmas -/

theorem incVote_length (l : List PollOption) (i : Nat) :
    (incVote l i).length = l.length := by
  induction l generalizing i with
  | nil => rfl
  | cons o rest ih =>
    cases i with
    | zero => rfl
    | succ n => simp [incVote, ih]

theorem incVote_texts (l : List PollOption) (i : Nat) :
    (incVote l i).map (fun o => o.text) = l.map (fun o => o.text) := by
  induction l generalizing i with
  | nil => rfl
  | cons o rest ih =>
    cases i with
    | zero => rfl
    | succ n => simp [incVote, ih]

theorem sumVotes_incVote (l : List PollOption) (i : Nat) (h : i < l.length) :
    sumVotes (incVote l i) = sumVotes l + 1 := by
  induction l generalizing i with
  | nil => simp at h
  | cons o rest ih =>
    cases i with
    | zero => simp [incVote, sumVotes]; omega
    | succ n =>
      have hn : n < rest.length := by simpa using h
      have := ih n hn
      simp only [incVote, sumVotes, List.map_cons, List.sum_cons] at *
      omega

theorem sumVotes_mkOptions (opts : List String) : sumVotes (mkOptions opts) = 0 := by
  unfold sumVotes mkOptions
  apply List.sum_eq_zero
  intro x hx
  simp only [List.map_map, List.mem_map] at hx
  obtain ⟨o, _, ho⟩ := hx
  simp [← ho, Function.comp]

/-! ### Sorted-set lemmas -/

theorem zinsert_perm (e : Nat × String) (l : List (Nat × String)) :
    (zinsert e l).Perm (e :: l) := by
  induction l with
  | nil => simp [zinsert]
  | cons x xs ih =>
    unfold zinsert
    by_cases h : e.1 < x.1
    · simp [h]
    · simp only [h, if_false]
      exact (ih.cons x).trans (List.Perm.swap e x xs)

theorem mem_zinsert (y e : Nat × String) (l : List (Nat × String)) :
    y ∈ zinsert e l ↔ y = e ∨ y ∈ l := by
  rw [(zinsert_perm e l).mem_iff]
  simp

theorem zinsert_pairwise (e : Nat × String) (l : List (Nat × String))
    (h : l.Pairwise (fun a b => a.1 ≤ b.1)) :
    (zinsert e l).Pairwise (fun a b => a.1 ≤ b.1) := by
  induction l with
  | nil => simp [zinsert]
  | cons x xs ih =>
    rw [List.pairwise_cons] at h
    unfold zinsert
    by_cases hlt : e.1 < x.1
    · simp only [hlt, if_true]
      rw [List.pairwise_cons]
      constructor
      · intro b hb
        rcases List.mem_cons.mp hb with hb | hb
        · rw [hb]; exact le_of_lt hlt
        · exact le_trans (le_of_lt hlt) (h.1 b hb)
      · exact List.pairwise_cons.mpr h
    · simp only [hlt, if_false]
      rw [List.pairwise_cons]
      constructor
      · intro b hb
        rcases (mem_zinsert b e xs).mp hb with hb | hb
        · rw [hb]; omega
        · exact h.1 b hb
      · exact ih h.2

theorem mem_zadd (y : Nat × String) (idx : List (Nat × String)) (sc : Nat)
    (m : String) : y ∈ zadd idx sc m ↔ y = (sc, m) ∨ (y ∈ idx ∧ y.2 ≠ m) := by
  unfold zadd
  rw [mem_zinsert]
  simp [List.mem_filter]

theorem zadd_membersNodup (idx : List (Nat × String)) (sc : Nat) (m : String)
    (h : (idx.map Prod.snd).Nodup) :
    ((zadd idx sc m).map Prod.snd).Nodup := by
  unfold zadd
  have hperm := (zinsert_perm (sc, m) (idx.filter (fun e => e.2 != m))).map Prod.snd
  rw [hperm.nodup_iff]
  simp only [List.map_cons]
  rw [List.nodup_cons]
  constructor
  · intro hm
    simp only [List.mem_map, List.mem_filter] at hm
    obtain ⟨e, ⟨_, he⟩, he2⟩ := hm
    simp only [bne_iff_ne, ne_eq] at he
    exact he he2
  · exact ((List.filter_sublist idx).map Prod.snd).nodup h

theorem zadd_pairwise (idx : List (Nat × String)) (sc : Nat) (m : String)
    (h : idx.Pairwise (fun a b => a.1 ≤ b.1)) :
    (zadd idx sc m).Pairwise (fun a b => a.1 ≤ b.1) := by
  unfold zadd
  exact zinsert_pairwise _ _ (List.Pairwise.sublist (List.filter_sublist idx) h)

/-! ### The store invariant -/

/-- The invariant every reachable store satisfies: unique keys, unique and
score-sorted index, index entries and records in one-to-one correspondence
(with score = creation time), keys matching record ids, and every record
internally consistent. -/
structure StoreInv (s : Store) : Prop where
  keysNodup : (s.polls.map Prod.fst).Nodup
  membersNodup : (s.index.map Prod.snd).Nodup
  sorted : s.index.Pairwise (fun a b => a.1 ≤ b.1)
  indexed : ∀ e ∈ s.index, ∃ p, getPoll s e.2 = some p ∧ p.createdAt = e.1
  covered : ∀ e ∈ s.polls, ∃ sc, (sc, e.1) ∈ s.index
  wellKeyed : WellKeyed s
  pollInv : ∀ e ∈ s.polls, PollInv e.2

/-! ### Operation characterization lemmas -/

theorem vote_notFound {s : Store} {pid : String} (i : Int) (v : String) (now : Nat)
    (h : getPoll s pid = none) :
    vote s pid i v now = (.error ⟨.notFound, "Not found"⟩, s) := by
  unfold vote
  rw [h]

theorem vote_expired {s : Store} {pid : String} {poll : StoredPoll}
    (i : Int) (v : String) {now : Nat}
    (h : getPoll s pid = some poll) (hexp : poll.expiresAt < now) :
    vote s pid i v now = (.error ⟨.forbidden, "This poll has expired"⟩, s) := by
  unfold vote
  rw [h]
  simp [isExpired, hexp]

theorem vote_badIndex {s : Store} {pid : String} {poll : StoredPoll}
    {i : Int} (v : String) {now : Nat}
    (h : getPoll s pid = some poll) (hexp : ¬ poll.expiresAt < now)
    (hout : i < 0 ∨ (poll.options.length : Int) ≤ i) :
    vote s pid i v now = (.error ⟨.validation, "Invalid option"⟩, s) := by
  unfold vote
  rw [h]
  simp [isExpired, hexp, hout]

theorem vote_already {s : Store} {pid : String} {poll : StoredPoll}
    {i : Int} {v : String} {now : Nat}
    (h : getPoll s pid = some poll) (hexp : ¬ poll.expiresAt < now)
    (hin : ¬(i < 0 ∨ (poll.options.length : Int) ≤ i))
    (hv : poll.voters.contains v = true) :
    vote s pid i v now = (.error ⟨.forbidden, "You have already voted"⟩, s) := by
  have hv' : v ∈ poll.voters := by simpa using hv
  unfold vote
  rw [h]
  simp [isExpired, hexp, hin, hv']

theorem vote_success {s : Store} {pid : String} {poll : StoredPoll}
    {i : Int} {v : String} {now : Nat}
    (h : getPoll s pid = some poll) (hexp : ¬ poll.expiresAt < now)
    (hin : ¬(i < 0 ∨ (poll.options.length : Int) ≤ i))
    (hv : poll.voters.contains v = false) :
    vote s pid i v now =
      (.ok { poll := sanitize (votedPoll poll i v)
             hasVoted := true
             isCreator := (votedPoll poll i v).creatorId == v
             expired := false },
        savePoll s (votedPoll poll i v)) := by
  have hv' : v ∉ poll.voters := by simpa using hv
  unfold vote
  rw [h]
  simp [isExpired, hexp, hin, hv']

theorem vote_ok_inv {s : Store} {pid : String} {i : Int} {v : String} {now : Nat}
    {r : PollResponse} {s' : Store}
    (h : vote s pid i v now = (.ok r, s')) :
    ∃ poll, getPoll s pid = some poll ∧ ¬ poll.expiresAt < now ∧
      0 ≤ i ∧ i < (poll.options.length : Int) ∧
      poll.voters.contains v = false ∧
      s' = savePoll s (votedPoll poll i v) ∧
      r = { poll := sanitize (votedPoll poll i v)
            hasVoted := true
            isCreator := (votedPoll poll i v).creatorId == v
            expired := false } := by
  rcases hget : getPoll s pid with _ | poll
  · rw [vote_notFound i v now hget] at h
    simp at h
  · by_cases hexp : poll.expiresAt < now
    · rw [vote_expired i v hget hexp] at h
      simp at h
    · by_cases hin : i < 0 ∨ (poll.options.length : Int) ≤ i
      · rw [vote_badIndex v hget hexp hin] at h
        simp at h
      · rcases hv : poll.voters.contains v with _ | _
        · rw [vote_success hget hexp hin hv] at h
          have h1 : s' = savePoll s (votedPoll poll i v) := by
            have := congrArg Prod.snd h
            simpa using this.symm
          have h2 := congrArg Prod.fst h
          simp only [Except.ok.injEq] at h2
          push_neg at hin
          exact ⟨poll, by simp [hget], hexp, hin.1, hin.2, hv, h1, h2.symm⟩
        · rw [vote_already hget hexp hin hv] at h
          simp at h

theorem vote_snd_cases (s : Store) (pid : String) (i : Int) (v : String)
    (now : Nat) :
    (vote s pid i v now).2 = s ∨
    ∃ poll, getPoll s pid = some poll ∧ ¬ poll.expiresAt < now ∧
      ¬(i < 0 ∨ (poll.options.length : Int) ≤ i) ∧
      poll.voters.contains v = false ∧
      (vote s pid i v now).2 = savePoll s (votedPoll poll i v) := by
  rcases hget : getPoll s pid with _ | poll
  · left; rw [vote_notFound i v now hget]
  · by_cases hexp : poll.expiresAt < now
    · left; rw [vote_expired i v hget hexp]
    · by_cases hin : i < 0 ∨ (poll.options.length : Int) ≤ i
      · left; rw [vote_badIndex v hget hexp hin]
      · rcases hv : poll.voters.contains v with _ | _
        · right
          exact ⟨poll, by simp [hget], hexp, hin, hv,
            by rw [vote_success hget hexp hin hv]⟩
        · left; rw [vote_already hget hexp hin hv]

theorem createPoll_error {s : Store} {req : CreateRequest} (pid : String)
    (now : Nat)
    (h : titleBlank req.title = true ∨ req.options = none ∨
      (req.options.getD []).length < 2) :
    createPoll s req pid now =
      (.error ⟨.validation, "Title and at least 2 options required"⟩, s) := by
  unfold createPoll
  simp only [if_pos h]

theorem createPoll_ok {s : Store} {req : CreateRequest} (pid : String)
    (now : Nat)
    (h : ¬(titleBlank req.title = true ∨ req.options = none ∨
      (req.options.getD []).length < 2)) :
    createPoll s req pid now =
      (.ok { poll := sanitize (builtPoll req pid now)
             hasVoted := false
             isCreator := true
             expired := false },
        savePoll s (builtPoll req pid now)) := by
  unfold createPoll
  simp only [if_neg h]

theorem createPoll_snd_cases (s : Store) (req : CreateRequest) (pid : String)
    (now : Nat) :
    (createPoll s req pid now).2 = s ∨
    (createPoll s req pid now).2 = savePoll s (builtPoll req pid now) := by
  by_cases h : titleBlank req.title = true ∨ req.options = none ∨
      (req.options.getD []).length < 2
  · left; rw [createPoll_error pid now h]
  · right; rw [createPoll_ok pid now h]

theorem deletePoll_notFound {s : Store} {pid : String} (v : String)
    (h : getPoll s pid = none) :
    deletePoll s pid v = (.error ⟨.notFound, "Not found"⟩, s) := by
  unfold deletePoll
  rw [h]

theorem deletePoll_forbidden {s : Store} {pid : String} {poll : StoredPoll}
    {v : String} (h : getPoll s pid = some poll) (hne : poll.creatorId ≠ v) :
    deletePoll s pid v =
      (.error ⟨.forbidden, "Only the creator can delete this poll"⟩, s) := by
  unfold deletePoll
  rw [h]
  simp [hne]

theorem deletePoll_success {s : Store} {pid : String} {poll : StoredPoll}
    {v : String} (h : getPoll s pid = some poll) (heq : poll.creatorId = v) :
    deletePoll s pid v =
      (.ok (), { polls := s.polls.filter (fun e => e.1 != pid)
                 index := zrem s.index pid }) := by
  unfold deletePoll
  rw [h]
  simp [heq]

/-! ### Invariant preservation -/

theorem pollInv_builtPoll (req : CreateRequest) (pid : String) (now : Nat) :
    PollInv (builtPoll req pid now) := by
  constructor
  · simp [builtPoll, sumVotes_mkOptions]
  · simp [builtPoll]

theorem pollInv_votedPoll {poll : StoredPoll} {i : Int} {v : String}
    (hp : PollInv poll) (hin : ¬(i < 0 ∨ (poll.options.length : Int) ≤ i))
    (hv : v ∉ poll.voters) : PollInv (votedPoll poll i v) := by
  push_neg at hin
  have hlt : i.toNat < poll.options.length := by omega
  have h1 := hp.1
  constructor
  · simp only [votedPoll, sumVotes_incVote _ _ hlt, List.length_append,
      List.length_singleton]
    omega
  · simp only [votedPoll, List.nodup_append, List.nodup_singleton]
    refine ⟨hp.2, trivial, ?_⟩
    intro a ha hb
    simp only [List.mem_singleton] at hb
    exact hv (hb ▸ ha)

theorem storeInv_savePoll {s : Store} {p : StoredPoll}
    (hs : StoreInv s) (hp : PollInv p) : StoreInv (savePoll s p) := by
  constructor
  · -- keysNodup
    simp only [savePoll, setKey, List.map_cons, List.nodup_cons]
    constructor
    · intro hmem
      simp only [List.mem_map, List.mem_filter, bne_iff_ne, ne_eq] at hmem
      obtain ⟨e, ⟨_, hne⟩, hkey⟩ := hmem
      exact hne hkey
    · exact ((List.filter_sublist s.polls).map Prod.fst).nodup hs.keysNodup
  · exact zadd_membersNodup _ _ _ hs.membersNodup
  · exact zadd_pairwise _ _ _ hs.sorted
  · -- indexed
    intro e he
    rcases (mem_zadd e s.index p.createdAt p.id).mp he with he | ⟨he, hne⟩
    · refine ⟨p, ?_, by rw [he]⟩
      rw [he]
      exact getPoll_savePoll_self s p
    · obtain ⟨q, hq, hqc⟩ := hs.indexed e he
      exact ⟨q, by rw [getPoll_savePoll_ne s p e.2 hne]; exact hq, hqc⟩
  · -- covered
    intro e he
    simp only [savePoll, setKey, List.mem_cons, List.mem_filter] at he
    rcases he with he | ⟨he, hne⟩
    · refine ⟨p.createdAt, (mem_zadd _ _ _ _).mpr (Or.inl ?_)⟩
      rw [he]
    · obtain ⟨sc, hsc⟩ := hs.covered e he
      refine ⟨sc, (mem_zadd _ _ _ _).mpr (Or.inr ⟨hsc, ?_⟩)⟩
      simpa using hne
  · -- wellKeyed
    intro e he
    simp only [savePoll, setKey, List.mem_cons, List.mem_filter] at he
    rcases he with he | ⟨he, _⟩
    · rw [he]
    · exact hs.wellKeyed e he
  · -- pollInv
    intro e he
    simp only [savePoll, setKey, List.mem_cons, List.mem_filter] at he
    rcases he with he | ⟨he, _⟩
    · rw [he]; exact hp
    · exact hs.pollInv e he

theorem storeInv_empty : StoreInv ⟨[], []⟩ := by
  constructor <;> simp [WellKeyed]

theorem storeInv_delete {s : Store} {pid : String} (hs : StoreInv s) :
    StoreInv { polls := s.polls.filter (fun e => e.1 != pid)
               index := zrem s.index pid } := by
  have hsub : (s.polls.filter (fun e => e.1 != pid)).Sublist s.polls :=
    List.filter_sublist s.polls
  have hsubI : (zrem s.index pid).Sublist s.index := List.filter_sublist s.index
  constructor
  · exact (hsub.map Prod.fst).nodup hs.keysNodup
  · exact (hsubI.map Prod.snd).nodup hs.membersNodup
  · exact List.Pairwise.sublist hsubI hs.sorted
  · intro e he
    simp only [zrem, List.mem_filter, bne_iff_ne, ne_eq] at he
    obtain ⟨q, hq, hqc⟩ := hs.indexed e he.1
    refine ⟨q, ?_, hqc⟩
    show (List.find? _ _).map _ = some q
    rw [show (List.filter (fun e => e.1 != pid) s.polls).find?
          (fun x => x.1 == e.2) = s.polls.find? (fun x => x.1 == e.2) from
        find?_filter_key s.polls e.2 pid he.2]
    exact hq
  · intro e he
    simp only [List.mem_filter, bne_iff_ne, ne_eq] at he
    obtain ⟨sc, hsc⟩ := hs.covered e he.1
    refine ⟨sc, ?_⟩
    simp only [zrem, List.mem_filter, bne_iff_ne, ne_eq]
    exact ⟨hsc, he.2⟩
  · intro e he
    exact hs.wellKeyed e (hsub.mem he)
  · intro e he
    exact hs.pollInv e (hsub.mem he)

/-- Every reachable store satisfies the invariant. -/
theorem reachable_inv {s : Store} (h : Reachable s) : StoreInv s := by
  induction h with
  | empty => exact storeInv_empty
  | create s req pid now _ ih =>
    rcases createPoll_snd_cases s req pid now with h2 | h2
    · rw [h2]; exact ih
    · rw [h2]; exact storeInv_savePoll ih (pollInv_builtPoll req pid now)
  | voteStep s pid i v now _ ih =>
    rcases vote_snd_cases s pid i v now with h2 | ⟨poll, hget, _, hin, hv, h2⟩
    · rw [h2]; exact ih
    · rw [h2]
      have hmem := getPoll_eq_some_mem hget
      have hv' : v ∉ poll.voters := by simpa using hv
      exact storeInv_savePoll ih (pollInv_votedPoll (ih.pollInv _ hmem) hin hv')
  | deleteStep s pid v _ ih =>
    rcases hget : getPoll s pid with _ | poll
    · rw [deletePoll_notFound v hget]; exact ih
    · by_cases hc : poll.creatorId = v
      · rw [deletePoll_success hget hc]; exact storeInv_delete ih
      · rw [deletePoll_forbidden hget hc]; exact ih

/-! ### More shared helpers -/

theorem mkOptions_votes (opts : List String) : ∀ o ∈ mkOptions opts, o.votes = 0 := by
  intro o ho
  simp only [mkOptions, List.mem_map] at ho
  obtain ⟨x, _, hx⟩ := ho
  rw [← hx]

theorem getPoll_after_vote {s : Store} {pid : String} {poll : StoredPoll}
    (i : Int) (v : String) (hw : WellKeyed s) (hget : getPoll s pid = some poll) :
    getPoll (savePoll s (votedPoll poll i v)) pid = some (votedPoll poll i v) := by
  have hid : poll.id = pid := hw _ (getPoll_eq_some_mem hget)
  have : (votedPoll poll i v).id = pid := by simp [votedPoll, hid]
  rw [← this]
  exact getPoll_savePoll_self s (votedPoll poll i v)

theorem getPoll_delete_self (s : Store) (pid : String) :
    getPoll { polls := s.polls.filter (fun e => e.1 != pid)
              index := zrem s.index pid } pid = none := by
  unfold getPoll
  rw [List.find?_eq_none.mpr]
  · rfl
  · intro x hx
    simp only [List.mem_filter, bne_iff_ne, ne_eq] at hx
    simp only [beq_iff_eq]
    exact hx.2

theorem index_members_perm_keys {s : Store} (hs : StoreInv s) :
    (s.index.map Prod.snd).Perm (s.polls.map Prod.fst) := by
  apply List.perm_of_nodup_nodup_toFinset_eq hs.membersNodup hs.keysNodup
  ext m
  simp only [List.mem_toFinset, List.mem_map]
  constructor
  · rintro ⟨e, he, rfl⟩
    obtain ⟨p, hp, _⟩ := hs.indexed e he
    exact ⟨(e.2, p), getPoll_eq_some_mem hp, rfl⟩
  · rintro ⟨e, he, rfl⟩
    obtain ⟨sc, hsc⟩ := hs.covered e he
    exact ⟨(sc, e.1), hsc, rfl⟩

theorem filterMap_ann (s : Store) (f : StoredPoll → PollResponse)
    (hf : ∀ p, (f p).poll.createdAt = p.createdAt ∧ (f p).poll.id = p.id)
    (l : List (Nat × String))
    (hl : ∀ e ∈ l, ∃ p, getPoll s e.2 = some p ∧ p.createdAt = e.1 ∧ p.id = e.2)
    (hsort : l.Pairwise (fun a b => b.1 ≤ a.1)) :
    ((l.map Prod.snd).filterMap (fun pid => (getPoll s pid).map f)).map
        (fun r => r.poll.id) = l.map Prod.snd ∧
    (∀ r ∈ (l.map Prod.snd).filterMap (fun pid => (getPoll s pid).map f),
      ∃ e ∈ l, r.poll.createdAt = e.1) ∧
    ((l.map Prod.snd).filterMap (fun pid => (getPoll s pid).map f)).Pairwise
        (fun a b => b.poll.createdAt ≤ a.poll.createdAt) := by
  induction l with
  | nil => simp
  | cons e l ih =>
    obtain ⟨p, hp, hpc, hpi⟩ := hl e (List.mem_cons_self e l)
    have hl' : ∀ e' ∈ l, ∃ p, getPoll s e'.2 = some p ∧ p.createdAt = e'.1 ∧
        p.id = e'.2 := fun e' he' => hl e' (List.mem_cons_of_mem e he')
    rw [List.pairwise_cons] at hsort
    obtain ⟨ih1, ih2, ih3⟩ := ih hl' hsort.2
    have hstep : ((e :: l).map Prod.snd).filterMap
        (fun pid => (getPoll s pid).map f) =
        f p :: (l.map Prod.snd).filterMap (fun pid => (getPoll s pid).map f) := by
      simp only [List.map_cons, List.filterMap_cons, hp, Option.map_some']
    refine ⟨?_, ?_, ?_⟩
    · rw [hstep]
      simp only [List.map_cons, ih1, List.map_cons]
      rw [(hf p).2, hpi]
    · rw [hstep]
      intro r hr
      rcases List.mem_cons.mp hr with hr | hr
      · exact ⟨e, List.mem_cons_self e l, by rw [hr, (hf p).1, hpc]⟩
      · obtain ⟨e', he', hc⟩ := ih2 r hr
        exact ⟨e', List.mem_cons_of_mem e he', hc⟩
    · rw [hstep, List.pairwise_cons]
      refine ⟨?_, ih3⟩
      intro b hb
      obtain ⟨e', he', hc⟩ := ih2 b hb
      rw [hc, (hf p).1, hpc]
      exact hsort.1 e' he'

theorem listPolls_of_inv {s : Store} (hs : StoreInv s) (vis : Option String)
    (now : Nat) :
    ((listPolls s vis now).map (fun r => r.poll.id)).Perm
      (s.polls.map Prod.fst) ∧
    (listPolls s vis now).Pairwise
      (fun a b => b.poll.createdAt ≤ a.poll.createdAt) := by
  have hl : ∀ e ∈ s.index.reverse,
      ∃ p, getPoll s e.2 = some p ∧ p.createdAt = e.1 ∧ p.id = e.2 := by
    intro e he
    rw [List.mem_reverse] at he
    obtain ⟨p, hp, hc⟩ := hs.indexed e he
    exact ⟨p, hp, hc, hs.wellKeyed _ (getPoll_eq_some_mem hp)⟩
  have hsort : s.index.reverse.Pairwise (fun a b => b.1 ≤ a.1) :=
    List.pairwise_reverse.mpr hs.sorted
  have := filterMap_ann s
    (fun poll =>
      { poll := sanitize poll
        hasVoted := match vis with
          | some v => poll.voters.contains v
          | none => false
        isCreator := match vis with
          | some v => poll.creatorId == v
          | none => false
        expired := isExpired now poll })
    (fun p => ⟨rfl, rfl⟩) s.index.reverse hl hsort
  constructor
  · show ((listPolls s vis now).map (fun r => r.poll.id)).Perm _
    unfold listPolls zrangeRev
    rw [this.1]
    exact ((s.index.reverse_perm).map Prod.snd).trans (index_members_perm_keys hs)
  · exact this.2.2

/-! ### Claim theorems -/

/-- C1: once a first Vote by visitor v on poll p succeeds, v is recorded in
the poll's voter set; and any vote on a stored poll whose voter set already
contains v (with a valid option index) is rejected with a forbidden error
and leaves the store — hence the option counts — unchanged; when the poll
is not expired the error is the 403 "You have already voted" response, so
the counts reflect exactly the single increment from v's first vote. -/
theorem C1_vote_once_forbidden :
    (∀ (s : Store) (pid : String) (i : Int) (v : String) (now : Nat)
        (r : PollResponse) (s' : Store),
      WellKeyed s → vote s pid i v now = (.ok r, s') →
      ∃ p', getPoll s' pid = some p' ∧ v ∈ p'.voters) ∧
    (∀ (s : Store) (pid : String) (j : Int) (v : String) (now : Nat)
        (p : StoredPoll),
      getPoll s pid = some p → v ∈ p.voters →
      ¬(j < 0 ∨ (p.options.length : Int) ≤ j) →
      (∃ e, (vote s pid j v now).1 = .error e ∧ e.kind = .forbidden) ∧
      (vote s pid j v now).2 = s ∧
      (¬ p.expiresAt < now →
        vote s pid j v now = (.error ⟨.forbidden, "You have already voted"⟩, s))) := by
  constructor
  · intro s pid i v now r s' hw h
    obtain ⟨poll, hget, _, _, _, _, hs', _⟩ := vote_ok_inv h
    refine ⟨votedPoll poll i v, ?_, ?_⟩
    · rw [hs']
      exact getPoll_after_vote i v hw hget
    · simp [votedPoll]
  · intro s pid j v now p hget hv hin
    by_cases hexp : p.expiresAt < now
    · rw [vote_expired j v hget hexp]
      exact ⟨⟨⟨.forbidden, "This poll has expired"⟩, rfl, rfl⟩, rfl,
        fun h => absurd hexp h⟩
    · have hv' : p.voters.contains v = true := by simpa using hv
      rw [vote_already hget hexp hin hv']
      exact ⟨⟨⟨.forbidden, "You have already voted"⟩, rfl, rfl⟩, rfl, fun _ => rfl⟩

/-- Demo store for the C1 witness: one poll whose voter set already holds
visitor A. -/
def pollW1 : StoredPoll :=
  { id := "q", title := "t"
    options := [{ text := "a", votes := 1 }, { text := "b", votes := 0 }]
    voters := ["A"], creatorId := "c", creatorName := "c"
    createdAt := 0, expiresAt := 100 }

def stW1 : Store := ⟨[("q", pollW1)], [(0, "q")]⟩

/-- C1 witness: on the demo store a second vote by A is the forbidden
"already voted" response and the store is untouched. -/
theorem C1_witness :
    vote stW1 "q" 1 "A" 5 =
      (.error ⟨.forbidden, "You have already voted"⟩, stW1) :=
  (C1_vote_once_forbidden.2 stW1 "q" 1 "A" 5 pollW1 (by decide) (by decide)
    (by decide)).2.2 (by decide)

/-- C2: on a stored poll whose expiry time is strictly in the past, every
vote — whatever the visitor or option index — is the forbidden
"This poll has expired" response leaving the store unchanged, while the
poll stays readable through GET (annotated expired) and its creator can
still delete it. -/
theorem C2_expired_poll (s : Store) (pid : String) (p : StoredPoll)
    (now : Nat) (hp : getPoll s pid = some p) (hexp : p.expiresAt < now) :
    (∀ (i : Int) (v : String),
      vote s pid i v now = (.error ⟨.forbidden, "This poll has expired"⟩, s)) ∧
    (∀ vis, ∃ r, getOne s pid vis now = .ok r ∧ r.poll = sanitize p ∧
      r.expired = true) ∧
    ((deletePoll s pid p.creatorId).1 = .ok () ∧
      getPoll (deletePoll s pid p.creatorId).2 pid = none) := by
  refine ⟨?_, ?_, ?_⟩
  · intro i v
    exact vote_expired i v hp hexp
  · intro vis
    unfold getOne
    rw [hp]
    exact ⟨_, rfl, rfl, by simp [isExpired, hexp]⟩
  · rw [deletePoll_success hp rfl]
    exact ⟨rfl, getPoll_delete_self s pid⟩

/-- Demo store for the C2 witness: a poll already past its expiry. -/
def pollW2 : StoredPoll :=
  { id := "q", title := "t"
    options := [{ text := "a", votes := 0 }, { text := "b", votes := 0 }]
    voters := [], creatorId := "c", creatorName := "c"
    createdAt := 0, expiresAt := 10 }

def stW2 : Store := ⟨[("q", pollW2)], [(0, "q")]⟩

/-- C2 witness: at time 11 the demo poll rejects a fresh visitor's vote as
expired. -/
theorem C2_witness :
    vote stW2 "q" 0 "B" 11 =
      (.error ⟨.forbidden, "This poll has expired"⟩, stW2) :=
  (C2_expired_poll stW2 "q" pollW2 11 (by decide) (by decide)).1 0 "B"

/-- Request refuting C3: raw options length is 2, but only one entry is
non-blank after trimming. -/
def reqW3 : CreateRequest :=
  { title := some "t", options := some ["a", " "]
    creatorId := none, creatorName := none
    durationAmount := none, durationUnit := none }

/-- C3 counterexample: the claim says a submission whose raw options list
has length ≥ 2 but fewer than 2 non-blank entries is rejected; the handler
accepts it and stores a one-option poll. -/
theorem C3_counterexample :
    (createPoll ⟨[], []⟩ reqW3 "p9" 0).1 =
      .ok { poll := { id := "p9", title := "t"
                      options := [{ text := "a", votes := 0 }]
                      totalVoters := 0, creatorId := "anonymous"
                      creatorName := "Anonymous", createdAt := 0
                      expiresAt := 86400000 }
            hasVoted := false, isCreator := true, expired := false } ∧
    (getPoll (createPoll ⟨[], []⟩ reqW3 "p9" 0).2 "p9").map
        (fun p => p.options.length) = some 1 := by
  constructor <;> rfl

/-- C3 amended: Create rejects with the validation error exactly when the
title is missing or trims to empty, the options field is missing, or the
raw options list has fewer than 2 entries — blank entries are filtered
only after this check; every rejection leaves the store unchanged. -/
theorem C3_raw_validation (s : Store) (req : CreateRequest) (pid : String)
    (now : Nat) :
    ((createPoll s req pid now).1 =
        .error ⟨.validation, "Title and at least 2 options required"⟩ ↔
      titleBlank req.title = true ∨ req.options = none ∨
        (req.options.getD []).length < 2) ∧
    (∀ e, (createPoll s req pid now).1 = .error e →
      (createPoll s req pid now).2 = s ∧
      e = ⟨.validation, "Title and at least 2 options required"⟩) := by
  by_cases h : titleBlank req.title = true ∨ req.options = none ∨
      (req.options.getD []).length < 2
  · rw [createPoll_error pid now h]
    exact ⟨⟨fun _ => h, fun _ => rfl⟩,
      fun e he => ⟨rfl, (Except.error.inj he).symm⟩⟩
  · rw [createPoll_ok pid now h]
    refine ⟨⟨fun hc => ?_, fun hc => absurd hc h⟩, fun e he => ?_⟩
    · simp at hc
    · simp at he

/-- C3 witness: a request with a blank title is rejected by the amended
validation rule. -/
theorem C3_witness :
    (createPoll ⟨[], []⟩
        { title := some " ", options := some ["a", "b"]
          creatorId := none, creatorName := none
          durationAmount := none, durationUnit := none } "x" 0).1 =
      .error ⟨.validation, "Title and at least 2 options required"⟩ :=
  (C3_raw_validation ⟨[], []⟩ _ "x" 0).1.mpr (by decide)

/-- C4: a freshly created poll has every option count 0 and no voters; a
successful vote raises the total count by exactly one and appends exactly
one new voter; and in every reachable store each stored poll's counts sum
to the number of its (pairwise-distinct) recorded voters. -/
theorem C4_counts_match_voters :
    (∀ (s : Store) (req : CreateRequest) (pid : String) (now : Nat)
        (r : PollResponse),
      (createPoll s req pid now).1 = .ok r →
      ∃ p, getPoll (createPoll s req pid now).2 pid = some p ∧
        (∀ o ∈ p.options, o.votes = 0) ∧ p.voters = []) ∧
    (∀ (s : Store) (pid : String) (i : Int) (v : String) (now : Nat)
        (r : PollResponse) (s' : Store) (p : StoredPoll),
      WellKeyed s → vote s pid i v now = (.ok r, s') → getPoll s pid = some p →
      ∃ p', getPoll s' pid = some p' ∧
        sumVotes p'.options = sumVotes p.options + 1 ∧
        p'.voters = p.voters ++ [v] ∧ v ∉ p.voters) ∧
    (∀ s : Store, Reachable s → ∀ e ∈ s.polls,
      sumVotes e.2.options = e.2.voters.length ∧ e.2.voters.Nodup) := by
  refine ⟨?_, ?_, ?_⟩
  · intro s req pid now r h
    by_cases hc : titleBlank req.title = true ∨ req.options = none ∨
        (req.options.getD []).length < 2
    · rw [createPoll_error pid now hc] at h
      simp at h
    · rw [createPoll_ok pid now hc]
      refine ⟨builtPoll req pid now, ?_, mkOptions_votes _, rfl⟩
      show getPoll (savePoll s (builtPoll req pid now)) pid = _
      have : (builtPoll req pid now).id = pid := rfl
      rw [← this]
      exact getPoll_savePoll_self s (builtPoll req pid now)
  · intro s pid i v now r s' p hw h hget
    obtain ⟨poll, hget2, _, h0, hlen, hv, hs', _⟩ := vote_ok_inv h
    rw [hget] at hget2
    cases Option.some.inj hget2
    have hlt : i.toNat < p.options.length := by omega
    refine ⟨votedPoll p i v, ?_, ?_, rfl, by simpa using hv⟩
    · rw [hs']
      exact getPoll_after_vote i v hw hget
    · simp [votedPoll, sumVotes_incVote _ _ hlt]
  · intro s hs e he
    exact (reachable_inv hs).pollInv e he

/-- Demo reachable store for the C4 witness: create one poll, then one
successful vote. -/
def reqW4 : CreateRequest :=
  { title := some "Lunch?", options := some ["Pizza", "Salad"]
    creatorId := some "C", creatorName := some "Carol"
    durationAmount := some 1, durationUnit := some "days" }

def stW4a : Store := (createPoll ⟨[], []⟩ reqW4 "p1" 100).2

def stW4 : Store := (vote stW4a "p1" 0 "A" 200).2

/-- C4 witness: the store reached by one create and one vote satisfies the
count/voter invariant at every stored poll. -/
theorem C4_witness :
    ∀ e ∈ stW4.polls,
      sumVotes e.2.options = e.2.voters.length ∧ e.2.voters.Nodup :=
  C4_counts_match_voters.2.2 stW4
    (Reachable.voteStep stW4a "p1" 0 "A" 200
      (Reachable.create ⟨[], []⟩ reqW4 "p1" 100 Reachable.empty))

/-- C5: responses carry no voter identifiers — `sanitize` is unchanged by
replacing the voter list with any other list of the same length — and the
stored record keeps no link from voter to chosen option: two successful
votes by the same visitor from the same state, differing only in the
option index, store records with identical voter components, the same
metadata, and the same option texts (only counts may differ). -/
theorem C5_voter_anonymity :
    (∀ (p : StoredPoll) (w : List String), w.length = p.voters.length →
      sanitize { p with voters := w } = sanitize p) ∧
    (∀ (s : Store) (pid : String) (i j : Int) (v : String) (now : Nat)
        (r1 r2 : PollResponse) (s1 s2 : Store),
      WellKeyed s →
      vote s pid i v now = (.ok r1, s1) → vote s pid j v now = (.ok r2, s2) →
      ∃ p1 p2, getPoll s1 pid = some p1 ∧ getPoll s2 pid = some p2 ∧
        p1.voters = p2.voters ∧ p1.id = p2.id ∧ p1.title = p2.title ∧
        p1.creatorId = p2.creatorId ∧ p1.creatorName = p2.creatorName ∧
        p1.createdAt = p2.createdAt ∧ p1.expiresAt = p2.expiresAt ∧
        p1.options.map (fun o => o.text) = p2.options.map (fun o => o.text)) := by
  constructor
  · intro p w hw
    simp [sanitize, hw]
  · intro s pid i j v now r1 r2 s1 s2 hw h1 h2
    obtain ⟨poll, hget, _, _, _, _, hs1, _⟩ := vote_ok_inv h1
    obtain ⟨poll', hget', _, _, _, _, hs2, _⟩ := vote_ok_inv h2
    rw [hget] at hget'
    cases Option.some.inj hget'
    refine ⟨votedPoll poll i v, votedPoll poll j v, ?_, ?_, rfl, rfl, rfl, rfl,
      rfl, rfl, rfl, ?_⟩
    · rw [hs1]; exact getPoll_after_vote i v hw hget
    · rw [hs2]; exact getPoll_after_vote j v hw hget
    · simp [votedPoll, incVote_texts]

/-- C5 witness: instantiate the sanitizer-indifference conjunct on a
concrete record, replacing its voter list by a fresh one of equal size. -/
theorem C5_witness :
    sanitize { pollW1 with voters := ["Z"] } = sanitize pollW1 :=
  C5_voter_anonymity.1 pollW1 ["Z"] (by decide)

/-- C6: Delete with an unknown poll id is not-found; Delete by a visitor
other than the creator is forbidden, changes nothing, and the poll stays
retrievable by Get; Delete by the creator succeeds and removes both the
record and its entry in the ordering index. -/
theorem C6_delete_authorization :
    (∀ (s : Store) (pid v : String), getPoll s pid = none →
      deletePoll s pid v = (.error ⟨.notFound, "Not found"⟩, s)) ∧
    (∀ (s : Store) (pid v : String) (p : StoredPoll),
      getPoll s pid = some p → v ≠ p.creatorId →
      deletePoll s pid v =
        (.error ⟨.forbidden, "Only the creator can delete this poll"⟩, s) ∧
      ∀ (vis : Option String) (now : Nat),
        ∃ r, getOne s pid vis now = .ok r ∧ r.poll = sanitize p) ∧
    (∀ (s : Store) (pid v : String) (p : StoredPoll),
      getPoll s pid = some p → v = p.creatorId →
      (deletePoll s pid v).1 = .ok () ∧
      getPoll (deletePoll s pid v).2 pid = none ∧
      ∀ e ∈ (deletePoll s pid v).2.index, e.2 ≠ pid) := by
  refine ⟨?_, ?_, ?_⟩
  · intro s pid v h
    exact deletePoll_notFound v h
  · intro s pid v p hp hne
    refine ⟨deletePoll_forbidden hp (fun hc => hne hc.symm), ?_⟩
    intro vis now
    unfold getOne
    rw [hp]
    exact ⟨_, rfl, rfl⟩
  · intro s pid v p hp heq
    rw [deletePoll_success hp heq.symm]
    refine ⟨rfl, getPoll_delete_self s pid, ?_⟩
    intro e he
    simp only [zrem, List.mem_filter, bne_iff_ne, ne_eq] at he
    exact he.2

/-- C6 witness: on the one-poll demo store, a non-creator's delete is
forbidden and leaves the store unchanged. -/
theorem C6_witness :
    deletePoll stW1 "q" "mallory" =
      (.error ⟨.forbidden, "Only the creator can delete this poll"⟩, stW1) :=
  ((C6_delete_authorization.2.1 stW1 "q" "mallory" pollW1 (by decide)
    (by decide)).1)

/-- Store refuting C7: an expired two-option poll. -/
def pollW7 : StoredPoll :=
  { id := "q", title := "t"
    options := [{ text := "a", votes := 0 }, { text := "b", votes := 0 }]
    voters := [], creatorId := "c", creatorName := "c"
    createdAt := 0, expiresAt := 10 }

def stW7 : Store := ⟨[("q", pollW7)], [(0, "q")]⟩

/-- C7 counterexample: the claim says every out-of-range vote is rejected
with a validation error; on an expired poll the out-of-range index 5 (the
poll has 2 options) is rejected with the forbidden expiry error instead,
because the expiry check runs before the bounds check. -/
theorem C7_counterexample :
    vote stW7 "q" 5 "v" 11 =
      (.error ⟨.forbidden, "This poll has expired"⟩, stW7) ∧
    ErrKind.forbidden ≠ ErrKind.validation := by
  exact ⟨rfl, by decide⟩

/-- C7 amended: a vote is accepted only for an index in `[0, N)`; an
out-of-range vote on a stored poll is always rejected and leaves the store
unchanged, with the validation "Invalid option" error whenever the poll is
not expired (an expired poll's forbidden error takes precedence). -/
theorem C7_option_bounds :
    (∀ (s : Store) (pid : String) (i : Int) (v : String) (now : Nat)
        (r : PollResponse) (s' : Store),
      vote s pid i v now = (.ok r, s') →
      ∃ p, getPoll s pid = some p ∧ 0 ≤ i ∧ i < (p.options.length : Int)) ∧
    (∀ (s : Store) (pid : String) (j : Int) (v : String) (now : Nat)
        (p : StoredPoll),
      getPoll s pid = some p → (j < 0 ∨ (p.options.length : Int) ≤ j) →
      (∃ e, (vote s pid j v now).1 = .error e) ∧
      (vote s pid j v now).2 = s ∧
      (¬ p.expiresAt < now →
        vote s pid j v now = (.error ⟨.validation, "Invalid option"⟩, s))) := by
  constructor
  · intro s pid i v now r s' h
    obtain ⟨p, hget, _, h0, hlen, _⟩ := vote_ok_inv h
    exact ⟨p, hget, h0, hlen⟩
  · intro s pid j v now p hget hout
    by_cases hexp : p.expiresAt < now
    · rw [vote_expired j v hget hexp]
      exact ⟨⟨_, rfl⟩, rfl, fun h => absurd hexp h⟩
    · rw [vote_badIndex v hget hexp hout]
      exact ⟨⟨_, rfl⟩, rfl, fun _ => rfl⟩

/-- C7 witness: a negative index on a live (non-expired) poll draws the
validation error. -/
theorem C7_witness :
    vote stW1 "q" (-1) "B" 5 = (.error ⟨.validation, "Invalid option"⟩, stW1) :=
  (C7_option_bounds.2 stW1 "q" (-1) "B" 5 pollW1 (by decide) (by decide)).2.2
    (by decide)

/-- C8: the duration amount is floored to a minimum of 1 (missing, zero and
sub-1 amounts all become 1), amounts ≥ 1 are kept, a missing or
unrecognized unit falls back to days (86400000 ms), and a creation with
duration 0 days gets `expiresAt = createdAt + 1 day`. -/
theorem C8_duration_defaults :
    durAmount none = 1 ∧ durAmount (some 0) = 1 ∧
    (∀ n : Int, n < 1 → durAmount (some n) = 1) ∧
    (∀ n : Int, 1 ≤ n → (durAmount (some n) : Int) = n) ∧
    durUnitMs none = 86400000 ∧
    (∀ u : String, u ≠ "hours" → u ≠ "days" → u ≠ "weeks" → u ≠ "months" →
      durUnitMs (some u) = 86400000) ∧
    (∀ (s : Store) (req : CreateRequest) (pid : String) (now : Nat)
        (r : PollResponse),
      req.durationAmount = some 0 → req.durationUnit = some "days" →
      (createPoll s req pid now).1 = .ok r →
      r.poll.createdAt = now ∧ r.poll.expiresAt = now + 86400000) := by
  refine ⟨rfl, rfl, ?_, ?_, rfl, ?_, ?_⟩
  · intro n hn
    unfold durAmount jsOrInt
    by_cases h0 : n = 0
    · simp [h0]
    · simp only [h0, if_false]
      have : max 1 n = 1 := by omega
      rw [this]
      rfl
  · intro n hn
    unfold durAmount jsOrInt
    have h0 : ¬ n = 0 := by omega
    simp only [h0, if_false]
    have : max 1 n = n := by omega
    rw [this]
    omega
  · intro u h1 h2 h3 h4
    unfold durUnitMs UNIT_MS
    simp [h1, h2, h3, h4]
  · intro s req pid now r hd hu h
    by_cases hc : titleBlank req.title = true ∨ req.options = none ∨
        (req.options.getD []).length < 2
    · rw [createPoll_error pid now hc] at h
      simp at h
    · rw [createPoll_ok pid now hc] at h
      cases Except.ok.inj h
      refine ⟨rfl, ?_⟩
      show (builtPoll req pid now).expiresAt = now + 86400000
      unfold builtPoll
      rw [hd, hu]
      rfl

/-- C8 witness: a concrete creation with duration `{amount 0, unit days}`
expires exactly one day after creation. -/
theorem C8_witness :
    ((createPoll ⟨[], []⟩
        { title := some "t", options := some ["a", "b"]
          creatorId := none, creatorName := none
          durationAmount := some 0, durationUnit := some "days" } "p8" 50).1 =
      .ok { poll := { id := "p8", title := "t"
                      options := [{ text := "a", votes := 0 },
                                  { text := "b", votes := 0 }]
                      totalVoters := 0, creatorId := "anonymous"
                      creatorName := "Anonymous", createdAt := 50
                      expiresAt := 86400050 }
            hasVoted := false, isCreator := true, expired := false }) ∧
    (∀ r, (createPoll ⟨[], []⟩
        { title := some "t", options := some ["a", "b"]
          creatorId := none, creatorName := none
          durationAmount := some 0, durationUnit := some "days" } "p8" 50).1 =
        .ok r → r.poll.createdAt = 50 ∧ r.poll.expiresAt = 50 + 86400000) :=
  ⟨rfl, fun r h =>
    C8_duration_defaults.2.2.2.2.2.2 ⟨[], []⟩ _ "p8" 50 r rfl rfl h⟩

/-- Demo stores for C9: create poll p1 at time 100, then p2 at time 200. -/
def reqW9a : CreateRequest :=
  { title := some "First", options := some ["a", "b"]
    creatorId := some "C", creatorName := some "Carol"
    durationAmount := some 1, durationUnit := some "days" }

def reqW9b : CreateRequest :=
  { title := some "Second", options := some ["x", "y"]
    creatorId := some "C", creatorName := some "Carol"
    durationAmount := some 1, durationUnit := some "days" }

def stW9a : Store := (createPoll ⟨[], []⟩ reqW9a "p1" 100).2

def stW9 : Store := (createPoll stW9a reqW9b "p2" 200).2

/-- C9: in every reachable store, listing returns every stored poll exactly
once (the returned ids are a permutation of the stored keys, which are
pairwise distinct) in descending creation-time order; and after creating
P1 then P2 the listing is `[P2, P1]`. -/
theorem C9_list_ordering :
    (∀ s : Store, Reachable s → ∀ (vis : Option String) (now : Nat),
      ((listPolls s vis now).map (fun r => r.poll.id)).Perm
        (s.polls.map Prod.fst) ∧
      (listPolls s vis now).Pairwise
        (fun a b => b.poll.createdAt ≤ a.poll.createdAt)) ∧
    (listPolls stW9 none 300).map (fun r => r.poll.id) = ["p2", "p1"] := by
  constructor
  · intro s hs vis now
    exact listPolls_of_inv (reachable_inv hs) vis now
  · rfl

/-- C9 witness: the general ordering result applied to the concrete
two-poll store. -/
theorem C9_witness :
    ((listPolls stW9 none 300).map (fun r => r.poll.id)).Perm
      (stW9.polls.map Prod.fst) :=
  (C9_list_ordering.1 stW9
    (Reachable.create stW9a reqW9b "p2" 200
      (Reachable.create ⟨[], []⟩ reqW9a "p1" 100 Reachable.empty)) none 300).1

/-- C10: a creation whose creatorId is missing or empty stores the literal
creator "anonymous" (and a missing creatorName stores "Anonymous"); for
any stored poll whose creator is "anonymous", a delete presenting the
visitor id "anonymous" succeeds and removes the record. -/
theorem C10_anonymous_creator :
    (∀ (s : Store) (req : CreateRequest) (pid : String) (now : Nat)
        (r : PollResponse),
      (req.creatorId = none ∨ req.creatorId = some "") →
      (createPoll s req pid now).1 = .ok r →
      ∃ p, getPoll (createPoll s req pid now).2 pid = some p ∧
        p.creatorId = "anonymous" ∧
        (req.creatorName = none → p.creatorName = "Anonymous")) ∧
    (∀ (s : Store) (pid : String) (p : StoredPoll), getPoll s pid = some p →
      p.creatorId = "anonymous" →
      (deletePoll s pid "anonymous").1 = .ok () ∧
      getPoll (deletePoll s pid "anonymous").2 pid = none) := by
  constructor
  · intro s req pid now r hcid h
    by_cases hc : titleBlank req.title = true ∨ req.options = none ∨
        (req.options.getD []).length < 2
    · rw [createPoll_error pid now hc] at h
      simp at h
    · rw [createPoll_ok pid now hc]
      refine ⟨builtPoll req pid now, ?_, ?_, ?_⟩
      · show getPoll (savePoll s (builtPoll req pid now)) pid = _
        have hid : (builtPoll req pid now).id = pid := rfl
        rw [← hid]
        exact getPoll_savePoll_self s (builtPoll req pid now)
      · show jsOrStr req.creatorId "anonymous" = "anonymous"
        rcases hcid with h1 | h1 <;> rw [h1] <;> rfl
      · intro hn
        show jsTrim (jsOrStr req.creatorName "Anonymous") = "Anonymous"
        rw [hn]
        rfl
  · intro s pid p hp hcid
    rw [deletePoll_success hp hcid]
    exact ⟨rfl, getPoll_delete_self s pid⟩

/-- Request for the C10 witness: no creator identity supplied at all. -/
def reqW10 : CreateRequest :=
  { title := some "t", options := some ["a", "b"]
    creatorId := none, creatorName := none
    durationAmount := none, durationUnit := none }

/-- C10 witness: the concrete anonymous creation stores creator
"anonymous" / "Anonymous". -/
theorem C10_witness :
    ∃ p, getPoll (createPoll ⟨[], []⟩ reqW10 "pa" 0).2 "pa" = some p ∧
      p.creatorId = "anonymous" ∧
      (reqW10.creatorName = none → p.creatorName = "Anonymous") :=
  C10_anonymous_creator.1 ⟨[], []⟩ reqW10 "pa" 0 _ (Or.inl rfl) rfl
